import Mathlib

/-!
# LPM027M128C frame-buffer driver: the display update engine

A shallow embedding of `lpm027m128c_fb.c`: the pixel packing loop and the line
transfer of `lpm027m128c_update_line`, the full refresh of
`lpm027m128c_update_display`, the raw write hook `lpm027m128c_fb_write`, and the
power-up sequence of `lpm027m128c_init_display` / `lpm027m128c_probe`.

Every call the driver makes into the kernel (allocator, GPIO, SPI, delays, mutex,
user copy) is recorded as an `Event` appended to a trace; the outcome of a fallible
call is supplied by an `Env` whose answers may depend on the whole trace so far.
Behaviour the C language leaves to the target (a shift by a count outside `0..31`,
the width of `unsigned long`) is supplied by a `Platform`.
-/

namespace Lpm027m128c

/-! ## Constants -/

def LPM027M128C_WIDTH : Nat := 400
def LPM027M128C_HEIGHT : Nat := 240
def LPM027M128C_BPP : Nat := 32
def LPM027M128C_MODE_ALL_CLEAR : Nat := 0x08
def LPM027M128C_MODE_UPDATE_SINGLE_3BIT : Nat := 0x01

/-- Kernel errno values used by the driver (`include/uapi/asm-generic/errno-base.h`). -/
def EPERM : Int := 1
def ENOMEM : Int := 12
def EFAULT : Int := 14
def EINVAL : Int := 22
def EFBIG : Int := 27

/-- Value of `FBINFO_STATE_RUNNING` in `include/linux/fb.h`. -/
def FBINFO_STATE_RUNNING : Nat := 0

/-! ## Environment -/

/-- The four control lines held in `struct lpm027m128c_par`. -/
inductive Gpio where
  | scs
  | extcomin
  | disp
  | extmode
  deriving DecidableEq, Repr

/-- One call from the driver into the kernel, with the arguments the driver passed. -/
inductive Event where
  | kmalloc (size : Nat) (ok : Bool)
  | kfree
  | gpiod_set_value (line : Gpio) (value : Nat)
  | spi_sync (tx_buf : List Nat)
  | msleep (ms : Nat)
  | udelay (us : Nat)
  | mutex_lock
  | mutex_unlock
  | copy_from_user (p : Nat) (count : Nat)
  deriving DecidableEq, Repr

/-- Target-dependent behaviour.  `shl_undefined v s` is the `int` bit pattern the target
produces for `v << s` when `s` is negative or at least 32; `BITS_PER_LONG` is the width
of `unsigned long`. -/
structure Platform where
  shl_undefined : Nat → Int → Nat
  BITS_PER_LONG : Nat

/-- Outcomes of the fallible kernel services, each as a function of the trace so far.
`kmalloc` answers `none` on failure and otherwise the (uninitialised) contents of the
block; `spi_sync` answers the return code; `gpiod_status` is the outcome of a control
line operation (the driver calls `gpiod_set_value_cansleep` as a statement and never
sees it); `copy_from_user` answers the number of bytes left uncopied and the frame
buffer after the copy. -/
structure Env where
  kmalloc : List Event → Nat → Option (Nat → Nat)
  spi_sync : List Event → List Nat → Int
  gpiod_status : List Event → Gpio → Nat → Int
  copy_from_user : List Event → (Int → Nat) → Nat → Nat → Nat × (Int → Nat)

/-- The fields of `struct lpm027m128c_par` the update engine reads or writes: the frame
buffer as 32-bit words indexed relative to `par->vmem`, and `display_on`. -/
structure lpm027m128c_par where
  vmem : Int → Nat
  display_on : Bool

/-- The fields of `struct fb_info` read by `lpm027m128c_fb_write`. -/
structure fb_info where
  state : Nat
  smem_len : Nat
  par : lpm027m128c_par

/-! ## Machine arithmetic -/

/-- Conversion of an `int` to `u8`. -/
def u8 (x : Int) : Nat := (x % 256).toNat

/-- C `v << s` on an `int` operand: defined for `0 ≤ s < 32`, otherwise whatever the
platform does. -/
def shl (pf : Platform) (v : Nat) (s : Int) : Nat :=
  if 0 ≤ s ∧ s < 32 then v <<< s.toNat else pf.shl_undefined v s

/-- `memset(buf + off, 0, n)`. -/
def memset (buf : List Nat) (off n : Nat) : List Nat :=
  buf.take off ++ List.replicate n 0 ++ buf.drop (off + n)

/-! ## Pixel encoder (the loop of `lpm027m128c_update_line`) -/

/-- One statement `line_buf[index] |= (value << shift)`. -/
structure Write where
  index : Nat
  value : Nat
  shift : Int
  deriving DecidableEq, Repr

/-- The three `|=` statements executed for pixel `i`, in program order. -/
def pixel_writes (i pixel : Nat) : List Write :=
  let r := (pixel >>> 16) &&& 0x01
  let g := (pixel >>> 8) &&& 0x01
  let b := pixel &&& 0x01
  let byte_pos := i * 3 / 8
  let bit_pos := (i * 3) % 8
  if bit_pos ≤ 5 then
    [⟨byte_pos, r, 7 - (bit_pos : Int)⟩,
     ⟨byte_pos, g, 6 - (bit_pos : Int)⟩,
     ⟨byte_pos, b, 5 - (bit_pos : Int)⟩]
  else
    [⟨byte_pos, r, 7 - (bit_pos : Int)⟩,
     ⟨byte_pos, g, 6 - (bit_pos : Int)⟩,
     ⟨byte_pos + 1, b, 7 - ((bit_pos : Int) - 6)⟩]

/-- Execute `line_buf[w.index] |= (w.value << w.shift)` on a `u8` buffer. -/
def or_byte (pf : Platform) (line_buf : List Nat) (w : Write) : List Nat :=
  line_buf.set w.index ((line_buf.getD w.index 0 ||| shl pf w.value w.shift) % 256)

/-- The `for (i = 0; i < LPM027M128C_WIDTH; i++)` loop. -/
def pack_pixels (pf : Platform) (vmem_line : Nat → Nat) (line_buf : List Nat) : List Nat :=
  (List.range LPM027M128C_WIDTH).foldl
    (fun buf i => (pixel_writes i (vmem_line i)).foldl (or_byte pf) buf) line_buf

/-- The pixel loop run on a cleared 150-byte pixel area. -/
def packed_row (pf : Platform) (vmem_line : Nat → Nat) : List Nat :=
  pack_pixels pf vmem_line (List.replicate 150 0)

/-- The block returned by `kmalloc(size)`, holding whatever `uninit` says. -/
def fresh_block (uninit : Nat → Nat) (size : Nat) : List Nat :=
  (List.range size).map (fun k => uninit k % 256)

/-- Contents of `line_buf` when it is handed to the transport: the block is cleared
over the pixel area, packed, and its two trailing bytes are cleared. -/
def build_line_buf (pf : Platform) (vmem : Int → Nat) (line : Int) (block : List Nat) :
    List Nat :=
  let vmem_line := fun i : Nat => vmem (line * LPM027M128C_WIDTH + i)
  let buf := memset block 0 (LPM027M128C_WIDTH * 3 / 8)
  let buf := pack_pixels pf vmem_line buf
  memset buf (LPM027M128C_WIDTH * 3 / 8) 2

/-- Contents of `cmd_buf`. -/
def build_cmd_buf (line : Int) : List Nat :=
  [0x01, 0x00, 0x00, 0x00, 0x00, u8 (Int.land (line >>> 8) 0x03), u8 (Int.land line 0xFF)]

/-! ## Kernel services -/

/-- Call of `gpiod_set_value_cansleep(line, value)`; nothing is returned to the driver. -/
def gpiod_set_value_cansleep (line : Gpio) (value : Nat) (tr : List Event) : List Event :=
  tr ++ [Event.gpiod_set_value line value]

/-- `lpm027m128c_write_cmd`: one SPI message carrying the single byte `cmd`. -/
def lpm027m128c_write_cmd (env : Env) (cmd : Nat) (tr : List Event) : Int × List Event :=
  (env.spi_sync tr [cmd], tr ++ [Event.spi_sync [cmd]])

/-- `lpm027m128c_write_data`: one SPI message carrying the first `len` bytes of `data`. -/
def lpm027m128c_write_data (env : Env) (data : List Nat) (len : Nat) (tr : List Event) :
    Int × List Event :=
  (env.spi_sync tr (data.take len), tr ++ [Event.spi_sync (data.take len)])

/-! ## Line transfer -/

/-- `lpm027m128c_update_line`: return code and trace. -/
def lpm027m128c_update_line (pf : Platform) (env : Env) (par : lpm027m128c_par)
    (line : Int) (tr : List Event) : Int × List Event :=
  if line ≥ LPM027M128C_HEIGHT then (-EINVAL, tr)
  else
    match env.kmalloc tr (LPM027M128C_WIDTH * 3 / 8 + 2) with
    | none => (-ENOMEM, tr ++ [Event.kmalloc (LPM027M128C_WIDTH * 3 / 8 + 2) false])
    | some uninit =>
      let tr1 := tr ++ [Event.kmalloc (LPM027M128C_WIDTH * 3 / 8 + 2) true]
      let cmd_buf := build_cmd_buf line
      let line_buf := build_line_buf pf par.vmem line
        (fresh_block uninit (LPM027M128C_WIDTH * 3 / 8 + 2))
      let tr2 := gpiod_set_value_cansleep Gpio.scs 1 tr1
      let hdr := lpm027m128c_write_data env cmd_buf 7 tr2
      if hdr.1 < 0 then (hdr.1, hdr.2 ++ [Event.kfree])
      else
        let dat := lpm027m128c_write_data env line_buf (LPM027M128C_WIDTH * 3 / 8 + 2) hdr.2
        let tr3 := gpiod_set_value_cansleep Gpio.scs 0 dat.2
        (dat.1, tr3 ++ [Event.kfree])

/-! ## Full refresh -/

/-- `lpm027m128c_update_display`: the trace after the refresh (the function is `void`). -/
def lpm027m128c_update_display (pf : Platform) (env : Env) (par : lpm027m128c_par)
    (tr : List Event) : List Event :=
  let tr1 := tr ++ [Event.mutex_lock]
  let tr2 := (List.range LPM027M128C_HEIGHT).foldl
    (fun (t : List Event) (i : Nat) =>
      (lpm027m128c_update_line pf env par (i : Int) t).2 ++ [Event.udelay 50]) tr1
  tr2 ++ [Event.mutex_unlock]

/-! ## Raw write hook -/

/-- What `lpm027m128c_fb_write` leaves behind: return value, `*ppos`, the driver state
and the trace. -/
structure WriteResult where
  ret : Int
  ppos : Int
  par : lpm027m128c_par
  trace : List Event

/-- `lpm027m128c_fb_write`. -/
def lpm027m128c_fb_write (pf : Platform) (env : Env) (info : fb_info) (count : Nat)
    (ppos : Int) (tr : List Event) : WriteResult :=
  let p : Nat := (ppos % 2 ^ pf.BITS_PER_LONG).toNat
  if info.state ≠ FBINFO_STATE_RUNNING then ⟨-EPERM, ppos, info.par, tr⟩
  else
    let total_size := info.smem_len
    if p > total_size then ⟨-EFBIG, ppos, info.par, tr⟩
    else
      let count1 := if count > total_size - p then total_size - p else count
      if count1 = 0 then ⟨0, ppos, info.par, tr⟩
      else
        let copied := env.copy_from_user tr info.par.vmem p count1
        let par1 : lpm027m128c_par := { info.par with vmem := copied.2 }
        let tr1 := tr ++ [Event.copy_from_user p count1]
        if copied.1 ≠ 0 then ⟨-EFAULT, ppos, par1, tr1⟩
        else ⟨count1, ppos + count1, par1, lpm027m128c_update_display pf env par1 tr1⟩

/-! ## Power-up -/

/-- `lpm027m128c_init_display`: return code, driver state and trace. -/
def lpm027m128c_init_display (env : Env) (par : lpm027m128c_par) (tr : List Event) :
    Int × lpm027m128c_par × List Event :=
  let tr1 := gpiod_set_value_cansleep Gpio.extmode 0 tr
  let tr2 := gpiod_set_value_cansleep Gpio.disp 0 tr1
  let tr3 := tr2 ++ [Event.msleep 10]
  let tr4 := gpiod_set_value_cansleep Gpio.disp 1 tr3
  let tr5 := gpiod_set_value_cansleep Gpio.scs 1 tr4
  let cmd := lpm027m128c_write_cmd env LPM027M128C_MODE_ALL_CLEAR tr5
  let tr6 := gpiod_set_value_cansleep Gpio.scs 0 cmd.2
  if cmd.1 < 0 then (cmd.1, par, tr6)
  else (0, { par with display_on := true }, tr6 ++ [Event.msleep 50])

/-- Outcomes of the binding steps of `lpm027m128c_probe` that come before and after the
display initialisation: `spi_setup`, `devm_kzalloc`, the four `devm_gpiod_get` calls
(`0` or the `PTR_ERR` value), and `lpm027m128c_fb_setup`. -/
structure ProbeEnv where
  spi_setup : Int
  devm_kzalloc : Bool
  devm_gpiod_get : Gpio → Int
  fb_setup : Int

/-- `lpm027m128c_probe`: return code, driver state (when it was allocated) and trace. -/
def lpm027m128c_probe (penv : ProbeEnv) (env : Env) (tr : List Event) :
    Int × Option lpm027m128c_par × List Event :=
  if penv.spi_setup < 0 then (penv.spi_setup, none, tr)
  else if !penv.devm_kzalloc then (-ENOMEM, none, tr)
  else
    let par : lpm027m128c_par := ⟨fun _ => 0, false⟩
    if penv.devm_gpiod_get Gpio.scs < 0 then (penv.devm_gpiod_get Gpio.scs, some par, tr)
    else if penv.devm_gpiod_get Gpio.extcomin < 0 then
      (penv.devm_gpiod_get Gpio.extcomin, some par, tr)
    else if penv.devm_gpiod_get Gpio.disp < 0 then
      (penv.devm_gpiod_get Gpio.disp, some par, tr)
    else if penv.devm_gpiod_get Gpio.extmode < 0 then
      (penv.devm_gpiod_get Gpio.extmode, some par, tr)
    else
      let init := lpm027m128c_init_display env par tr
      if init.1 < 0 then (init.1, some init.2.1, init.2.2)
      else if penv.fb_setup < 0 then (penv.fb_setup, some init.2.1, init.2.2)
      else (0, some init.2.1, init.2.2)

/-! ## Reading the serial stream -/

/-- The reading rule of the serial stream in the words of the specification (the driver
only writes the stream): serial bit position `pos` is counted from the most significant
bit of byte 0, so it lies in byte `pos / 8` at bit `pos % 8` of that byte, MSB = 0. -/
def spec_decode_bit (payload : List Nat) (pos : Nat) : Nat :=
  (payload.getD (pos / 8) 0 >>> (7 - pos % 8)) &&& 1

/-- The chip-select and transport events of a trace. -/
def bus_events (tr : List Event) : List Event :=
  tr.filter (fun e => match e with
    | Event.gpiod_set_value Gpio.scs _ => true
    | Event.spi_sync _ => true
    | _ => false)

/-- Level given by the last chip-select operation of a trace, if there was one. -/
def last_scs (tr : List Event) : Option Nat :=
  tr.foldl (fun acc e => match e with
    | Event.gpiod_set_value Gpio.scs v => some v
    | _ => acc) none

/-! ## The out-of-range shift -/

/-- The platform's answer to `g << -1` for a one-bit operand has a clear low byte, so the
`u8` store of `line_buf[byte_pos] |= (g << -1)` leaves the byte as it was. -/
def ShlLowByteClear (pf : Platform) : Prop :=
  ∀ g : Nat, g ≤ 1 → pf.shl_undefined g (-1) % 256 = 0

/-! ## Shapes of a line transfer -/

/-- The 152 bytes `lpm027m128c_update_line` hands to the transport for `line`. -/
def line_payload (pf : Platform) (par : lpm027m128c_par) (line : Int) : List Nat :=
  packed_row pf (fun i : Nat => par.vmem (line * LPM027M128C_WIDTH + i)) ++ [0, 0]

/-- Events of a line transfer whose buffer allocation failed. -/
def attempt_alloc_failed : List Event := [Event.kmalloc 152 false]

/-- Events of a line transfer whose header transmission failed. -/
def attempt_header_failed (line : Int) : List Event :=
  [Event.kmalloc 152 true, Event.gpiod_set_value Gpio.scs 1,
   Event.spi_sync (build_cmd_buf line), Event.kfree]

/-- Events of a line transfer that reached the payload transmission. -/
def attempt_complete (pf : Platform) (par : lpm027m128c_par) (line : Int) : List Event :=
  [Event.kmalloc 152 true, Event.gpiod_set_value Gpio.scs 1,
   Event.spi_sync (build_cmd_buf line), Event.spi_sync (line_payload pf par line),
   Event.gpiod_set_value Gpio.scs 0, Event.kfree]

/-- The events `seg` are those of exactly one transfer attempt of `line`. -/
def is_line_attempt (pf : Platform) (par : lpm027m128c_par) (line : Nat) (seg : List Event) :
    Prop :=
  seg = attempt_alloc_failed ∨ seg = attempt_header_failed line ∨
    seg = attempt_complete pf par line

instance (pf : Platform) (par : lpm027m128c_par) (line : Nat) (seg : List Event) :
    Decidable (is_line_attempt pf par line seg) := by
  unfold is_line_attempt
  infer_instance

/-! ## Sample rows, platforms and environments -/

/-- The packed pixel area of an all-red row: `100100100...` MSB-first. -/
def red_bytes : List Nat := (List.replicate 50 [0x92, 0x49, 0x24]).flatten

/-- 32-bit ARM: `LSL Rd, Rn, Rs` takes the count from the bottom byte of `Rs`, and a
count of 32 or more gives 0; `unsigned long` has 32 bits. -/
def arm32 : Platform :=
  ⟨fun v s => if (s % 256).toNat < 32 then (v <<< (s % 256).toNat) % 2 ^ 32 else 0, 32⟩

/-- AArch64: `LSL Wd, Wn, Wm` takes the count modulo 32; `unsigned long` has 64 bits. -/
def arm64 : Platform :=
  ⟨fun v s => (v <<< (s % 32).toNat) % 2 ^ 32, 64⟩

/-- Every kernel service succeeds; a fresh block holds `0xA5` bytes. -/
def env_ok : Env :=
  ⟨fun _ _ => some (fun _ => 0xA5), fun _ _ => 0, fun _ _ _ => 0, fun _ vmem _ _ => (0, vmem)⟩

/-- As `env_ok`, but every `spi_sync` fails with `-5`. -/
def env_spi_fails : Env :=
  ⟨fun _ _ => some (fun _ => 0xA5), fun _ _ => -5, fun _ _ _ => 0, fun _ vmem _ _ => (0, vmem)⟩

/-- As `env_ok`, but every control-line operation fails with `-5`. -/
def env_gpio_fails : Env :=
  ⟨fun _ _ => some (fun _ => 0xA5), fun _ _ => 0, fun _ _ _ => -5, fun _ vmem _ _ => (0, vmem)⟩

/-- Number of refreshes begun in a trace: `lpm027m128c_update_display` is the only
function that takes the mutex, once per call. -/
def refresh_count (tr : List Event) : Nat := tr.count Event.mutex_lock

/-! ## Auxiliary facts -/

theorem and_one_eq_testBit (x c : Nat) : (x >>> c) &&& 1 = (x.testBit c).toNat := by
  rw [Nat.toNat_testBit, Nat.and_one_is_mod, Nat.shiftRight_eq_div_pow]

theorem shl_neg (pf : Platform) (v : Nat) (s : Int) (h : s < 0) :
    shl pf v s = pf.shl_undefined v s := by
  have : ¬ (0 ≤ s ∧ s < 32) := by omega
  simp [shl, this]

theorem bit_shl_testBit (pf : Platform) (v : Nat) (s : Int) (j : Nat)
    (h0 : 0 ≤ s) (h1 : s < 32) :
    (shl pf (v % 2) s).testBit j = true ↔ (j = s.toNat ∧ v % 2 = 1) := by
  have hs : (0 ≤ s ∧ s < 32) := ⟨h0, h1⟩
  simp only [shl, hs, and_self, if_true]
  rcases Nat.mod_two_eq_zero_or_one v with h | h
  · simp [h]
  · rw [h, Nat.shiftLeft_eq, Nat.one_mul, Nat.testBit_two_pow]
    simp [eq_comm]

theorem or_byte_length (pf : Platform) (buf : List Nat) (w : Write) :
    (or_byte pf buf w).length = buf.length := by
  simp [or_byte]

theorem or_byte_testBit (pf : Platform) (buf : List Nat) (w : Write) (k j : Nat) (hj : j < 8) :
    ((or_byte pf buf w).getD k 0).testBit j
      = ((buf.getD k 0).testBit j ||
          (decide (w.index = k ∧ k < buf.length) && (shl pf w.value w.shift).testBit j)) := by
  simp only [or_byte, List.getD_eq_getElem?_getD, List.getElem?_set]
  by_cases h : w.index = k
  · subst h
    by_cases hl : w.index < buf.length
    · have h256 : (256 : Nat) = 2 ^ 8 := rfl
      simp only [hl, if_true, Option.getD_some, h256, Nat.testBit_mod_two_pow, Nat.testBit_or,
        hj, decide_True, Bool.true_and, and_self, List.getElem?_eq_getElem]
    · have hn : buf[w.index]? = none := List.getElem?_eq_none (by omega)
      simp [hl, hn]
  · simp [h]

theorem foldl_or_byte_length (pf : Platform) (ws : List Write) (buf : List Nat) :
    (ws.foldl (or_byte pf) buf).length = buf.length := by
  induction ws generalizing buf with
  | nil => rfl
  | cons w ws ih => rw [List.foldl_cons, ih, or_byte_length]

theorem foldl_or_byte_testBit (pf : Platform) (ws : List Write) (buf : List Nat)
    (k j : Nat) (hj : j < 8) :
    ((ws.foldl (or_byte pf) buf).getD k 0).testBit j = true ↔
      ((buf.getD k 0).testBit j = true ∨
        ∃ w ∈ ws, w.index = k ∧ k < buf.length ∧ (shl pf w.value w.shift).testBit j = true) := by
  induction ws generalizing buf with
  | nil => simp
  | cons w ws ih =>
    rw [List.foldl_cons, ih, or_byte_testBit pf buf w k j hj, or_byte_length]
    simp only [Bool.or_eq_true, Bool.and_eq_true, decide_eq_true_eq, List.mem_cons,
      exists_eq_or_imp]
    tauto

/-- The pixel loop over an arbitrary list of pixel indices. -/
theorem pixel_loop_length (pf : Platform) (row : Nat → Nat) (is : List Nat) (buf : List Nat) :
    (is.foldl (fun b i => (pixel_writes i (row i)).foldl (or_byte pf) b) buf).length
      = buf.length := by
  induction is generalizing buf with
  | nil => rfl
  | cons i is ih => rw [List.foldl_cons, ih, foldl_or_byte_length]

theorem pixel_loop_testBit (pf : Platform) (row : Nat → Nat) (is : List Nat) (buf : List Nat)
    (k j : Nat) (hj : j < 8) :
    ((is.foldl (fun b i => (pixel_writes i (row i)).foldl (or_byte pf) b) buf).getD k 0).testBit j
        = true ↔
      ((buf.getD k 0).testBit j = true ∨
        ∃ i ∈ is, ∃ w ∈ pixel_writes i (row i),
          w.index = k ∧ k < buf.length ∧ (shl pf w.value w.shift).testBit j = true) := by
  induction is generalizing buf with
  | nil => simp
  | cons i is ih =>
    rw [List.foldl_cons, ih, foldl_or_byte_testBit pf _ buf k j hj, foldl_or_byte_length]
    simp only [List.mem_cons, exists_eq_or_imp, or_assoc]

theorem pixel_writes_bit (pf : Platform) (i px k j : Nat) (hj : j < 8) :
    (∃ w ∈ pixel_writes i px, w.index = k ∧ (shl pf w.value w.shift).testBit j = true) ↔
      ((8 * k + 7 = 3 * i + j ∧ (px >>> 16) % 2 = 1) ∨
       (8 * k + 7 = 3 * i + 1 + j ∧ (i * 3) % 8 ≠ 7 ∧ (px >>> 8) % 2 = 1) ∨
       (8 * k + 7 = 3 * i + 2 + j ∧ px % 2 = 1) ∨
       ((i * 3) % 8 = 7 ∧ k = i * 3 / 8 ∧
          (pf.shl_undefined ((px >>> 8) % 2) (-1)).testBit j = true)) := by
  have hb : (i * 3) % 8 = 0 ∨ (i * 3) % 8 = 1 ∨ (i * 3) % 8 = 2 ∨ (i * 3) % 8 = 3 ∨
      (i * 3) % 8 = 4 ∨ (i * 3) % 8 = 5 ∨ (i * 3) % 8 = 6 ∨ (i * 3) % 8 = 7 := by omega
  rcases hb with hb | hb | hb | hb | hb | hb | hb | hb
  · simp only [pixel_writes, hb]
    norm_num [bit_shl_testBit]
    omega
  · simp only [pixel_writes, hb]
    norm_num [bit_shl_testBit]
    omega
  · simp only [pixel_writes, hb]
    norm_num [bit_shl_testBit]
    omega
  · simp only [pixel_writes, hb]
    norm_num [bit_shl_testBit]
    omega
  · simp only [pixel_writes, hb]
    norm_num [bit_shl_testBit]
    omega
  · simp only [pixel_writes, hb]
    norm_num [bit_shl_testBit]
    omega
  · simp only [pixel_writes, hb]
    norm_num [bit_shl_testBit]
    omega
  · simp only [pixel_writes, hb]
    norm_num [bit_shl_testBit, shl_neg]
    generalize (pf.shl_undefined ((px >>> 8) % 2) (-1)).testBit j = u
    cases u
    · simp only [Bool.false_eq_true, and_false, or_false, false_or]
      omega
    · simp only [and_true]
      omega

theorem pixel_writes_index_lt (i px : Nat) (hi : i < 400) (w : Write)
    (hw : w ∈ pixel_writes i px) : w.index < 150 := by
  unfold pixel_writes at hw
  simp only [] at hw
  split at hw <;>
    simp only [List.mem_cons, List.mem_singleton, List.not_mem_nil, or_false] at hw <;>
    rcases hw with h | h | h <;> subst h <;> simp only [] <;> omega

theorem or_byte_append (pf : Platform) (a t : List Nat) (w : Write) (h : w.index < a.length) :
    or_byte pf (a ++ t) w = or_byte pf a w ++ t := by
  simp only [or_byte, List.set_append, h, if_true, List.getD_eq_getElem?_getD,
    List.getElem?_append_left h]

theorem foldl_or_byte_append (pf : Platform) (ws : List Write) (a t : List Nat)
    (h : ∀ w ∈ ws, w.index < a.length) :
    ws.foldl (or_byte pf) (a ++ t) = ws.foldl (or_byte pf) a ++ t := by
  induction ws generalizing a with
  | nil => rfl
  | cons w ws ih =>
    rw [List.foldl_cons, List.foldl_cons, or_byte_append pf a t w (h w (List.mem_cons_self _ _))]
    apply ih
    intro w1 hw1
    rw [or_byte_length]
    exact h w1 (List.mem_cons_of_mem _ hw1)

theorem pixel_loop_append (pf : Platform) (row : Nat → Nat) (is : List Nat) (a t : List Nat)
    (h : ∀ i ∈ is, ∀ w ∈ pixel_writes i (row i), w.index < a.length) :
    is.foldl (fun b i => (pixel_writes i (row i)).foldl (or_byte pf) b) (a ++ t)
      = is.foldl (fun b i => (pixel_writes i (row i)).foldl (or_byte pf) b) a ++ t := by
  induction is generalizing a with
  | nil => rfl
  | cons i is ih =>
    rw [List.foldl_cons, List.foldl_cons,
      foldl_or_byte_append pf _ a t (h i (List.mem_cons_self _ _))]
    apply ih
    intro i1 hi1 w hw
    rw [foldl_or_byte_length]
    exact h i1 (List.mem_cons_of_mem _ hi1) w hw

theorem packed_row_length (pf : Platform) (row : Nat → Nat) :
    (packed_row pf row).length = 150 := by
  simp [packed_row, pack_pixels, pixel_loop_length]

theorem pack_pixels_append (pf : Platform) (row : Nat → Nat) (t : List Nat) :
    pack_pixels pf row (List.replicate 150 0 ++ t) = packed_row pf row ++ t := by
  unfold packed_row pack_pixels
  apply pixel_loop_append
  intro i hi w hw
  rw [List.length_replicate]
  have hi1 : i < 400 := by simpa [LPM027M128C_WIDTH] using hi
  exact pixel_writes_index_lt i (row i) hi1 w hw

theorem build_line_buf_eq (pf : Platform) (vmem : Int → Nat) (line : Int) (block : List Nat)
    (hb : block.length = 152) :
    build_line_buf pf vmem line block
      = packed_row pf (fun i : Nat => vmem (line * LPM027M128C_WIDTH + i)) ++ [0, 0] := by
  have h150 : LPM027M128C_WIDTH * 3 / 8 = 150 := by decide
  simp only [build_line_buf, h150]
  have h1 : memset block 0 150 = List.replicate 150 0 ++ block.drop 150 := by
    simp [memset]
  rw [h1, pack_pixels_append]
  have hl := packed_row_length pf (fun i : Nat => vmem (line * LPM027M128C_WIDTH + i))
  simp [memset, List.take_append_of_le_length, hl, List.drop_append_of_le_length, hb]

theorem fresh_block_length (uninit : Nat → Nat) (n : Nat) :
    (fresh_block uninit n).length = n := by
  simp [fresh_block]

theorem getD_replicate_zero (n k : Nat) : (List.replicate n 0).getD k 0 = 0 := by
  rw [List.getD_eq_getElem?_getD, List.getElem?_replicate]
  split <;> rfl

theorem packed_row_testBit (pf : Platform) (row : Nat → Nat) (k j : Nat)
    (hk : k < 150) (hj : j < 8) :
    ((packed_row pf row).getD k 0).testBit j = true ↔
      ∃ i, i < 400 ∧
        ((8 * k + 7 = 3 * i + j ∧ (row i >>> 16) % 2 = 1) ∨
         (8 * k + 7 = 3 * i + 1 + j ∧ (i * 3) % 8 ≠ 7 ∧ (row i >>> 8) % 2 = 1) ∨
         (8 * k + 7 = 3 * i + 2 + j ∧ row i % 2 = 1) ∨
         ((i * 3) % 8 = 7 ∧ k = i * 3 / 8 ∧
            (pf.shl_undefined ((row i >>> 8) % 2) (-1)).testBit j = true)) := by
  unfold packed_row pack_pixels
  rw [pixel_loop_testBit pf row _ _ k j hj]
  have h0 : ((List.replicate 150 0).getD k 0).testBit j = false := by
    rw [getD_replicate_zero, Nat.zero_testBit]
  simp only [h0, Bool.false_eq_true, false_or, List.length_replicate, hk, true_and,
    List.mem_range, LPM027M128C_WIDTH]
  constructor
  · rintro ⟨i, hi, w, hw, h1, h2⟩
    exact ⟨i, hi, (pixel_writes_bit pf i (row i) k j hj).1 ⟨w, hw, h1, h2⟩⟩
  · rintro ⟨i, hi, h⟩
    obtain ⟨w, hw, h1, h2⟩ := (pixel_writes_bit pf i (row i) k j hj).2 h
    exact ⟨i, hi, w, hw, h1, h2⟩

theorem spec_decode_bit_le_one (payload : List Nat) (pos : Nat) :
    spec_decode_bit payload pos ≤ 1 := by
  unfold spec_decode_bit
  rw [Nat.and_one_is_mod]
  omega

theorem spec_decode_bit_payload (pf : Platform) (row : Nat → Nat) (pos : Nat)
    (hpos : pos < 1200) :
    spec_decode_bit (packed_row pf row ++ [0, 0]) pos = 1 ↔
      ∃ i, i < 400 ∧
        ((pos = 3 * i ∧ (row i >>> 16) % 2 = 1) ∨
         (pos = 3 * i + 1 ∧ (i * 3) % 8 ≠ 7 ∧ (row i >>> 8) % 2 = 1) ∨
         (pos = 3 * i + 2 ∧ row i % 2 = 1) ∨
         ((i * 3) % 8 = 7 ∧ pos / 8 = i * 3 / 8 ∧
            (pf.shl_undefined ((row i >>> 8) % 2) (-1)).testBit (7 - pos % 8) = true)) := by
  have hk : pos / 8 < 150 := by omega
  have hj : 7 - pos % 8 < 8 := by omega
  have hl := packed_row_length pf row
  have hget : (packed_row pf row ++ [0, 0]).getD (pos / 8) 0
      = (packed_row pf row).getD (pos / 8) 0 := by
    simp only [List.getD_eq_getElem?_getD]
    rw [List.getElem?_append_left (by omega)]
  unfold spec_decode_bit
  rw [hget, and_one_eq_testBit]
  have hb : ∀ b : Bool, b.toNat = 1 ↔ b = true := by decide
  rw [hb, packed_row_testBit pf row _ _ hk hj]
  constructor
  · rintro ⟨i, hi, h⟩
    refine ⟨i, hi, ?_⟩
    rcases h with h | h | h | h
    · exact Or.inl ⟨by omega, h.2⟩
    · exact Or.inr (Or.inl ⟨by omega, h.2⟩)
    · exact Or.inr (Or.inr (Or.inl ⟨by omega, h.2⟩))
    · exact Or.inr (Or.inr (Or.inr ⟨h.1, h.2.1, h.2.2⟩))
  · rintro ⟨i, hi, h⟩
    refine ⟨i, hi, ?_⟩
    rcases h with h | h | h | h
    · exact Or.inl ⟨by omega, h.2⟩
    · exact Or.inr (Or.inl ⟨by omega, h.2⟩)
    · exact Or.inr (Or.inr (Or.inl ⟨by omega, h.2⟩))
    · exact Or.inr (Or.inr (Or.inr ⟨h.1, h.2.1, h.2.2⟩))

theorem testBit_of_low_byte_clear (x j : Nat) (hx : x % 256 = 0) (hj : j < 8) :
    x.testBit j = false := by
  have h := Nat.testBit_mod_two_pow x 8 j
  have h256 : (2 : Nat) ^ 8 = 256 := rfl
  rw [h256, hx, Nat.zero_testBit] at h
  simpa [hj] using h.symm

theorem toNat_eq_mod_two (b : Bool) (v : Nat) (h : b = true ↔ v % 2 = 1) :
    b.toNat = v % 2 := by
  rcases Nat.mod_two_eq_zero_or_one v with h0 | h1
  · have : b = false := by
      cases b
      · rfl
      · exact absurd (h.1 rfl) (by omega)
    simp [this, h0]
  · have : b = true := h.2 h1
    simp [this, h1]

theorem spec_decode_bit_eq (payload : List Nat) (pos v : Nat)
    (h : spec_decode_bit payload pos = 1 ↔ v % 2 = 1) :
    spec_decode_bit payload pos = v % 2 := by
  have hle := spec_decode_bit_le_one payload pos
  omega

theorem payload_red (pf : Platform) (row : Nat → Nat) (i : Nat) (hi : i < 400)
    (hub : ShlLowByteClear pf) :
    spec_decode_bit (packed_row pf row ++ [0, 0]) (3 * i) = (row i >>> 16) % 2 := by
  apply spec_decode_bit_eq
  rw [spec_decode_bit_payload pf row (3 * i) (by omega)]
  constructor
  · rintro ⟨i1, hi1, h | h | h | h⟩
    · have : i1 = i := by omega
      subst this
      exact h.2
    · omega
    · omega
    · have hz := testBit_of_low_byte_clear _ (7 - 3 * i % 8)
        (hub ((row i1 >>> 8) % 2) (by omega)) (by omega)
      rw [hz] at h
      simp at h
  · intro h
    exact ⟨i, hi, Or.inl ⟨rfl, h⟩⟩

theorem payload_blue (pf : Platform) (row : Nat → Nat) (i : Nat) (hi : i < 400)
    (hub : ShlLowByteClear pf) :
    spec_decode_bit (packed_row pf row ++ [0, 0]) (3 * i + 2) = row i % 2 := by
  apply spec_decode_bit_eq
  rw [spec_decode_bit_payload pf row (3 * i + 2) (by omega)]
  constructor
  · rintro ⟨i1, hi1, h | h | h | h⟩
    · omega
    · omega
    · have : i1 = i := by omega
      subst this
      exact h.2
    · have hz := testBit_of_low_byte_clear _ (7 - (3 * i + 2) % 8)
        (hub ((row i1 >>> 8) % 2) (by omega)) (by omega)
      rw [hz] at h
      simp at h
  · intro h
    exact ⟨i, hi, Or.inr (Or.inr (Or.inl ⟨rfl, h⟩))⟩

theorem payload_green (pf : Platform) (row : Nat → Nat) (i : Nat) (hi : i < 400)
    (hub : ShlLowByteClear pf) (hph : (3 * i) % 8 ≠ 7) :
    spec_decode_bit (packed_row pf row ++ [0, 0]) (3 * i + 1) = (row i >>> 8) % 2 := by
  apply spec_decode_bit_eq
  rw [spec_decode_bit_payload pf row (3 * i + 1) (by omega)]
  constructor
  · rintro ⟨i1, hi1, h | h | h | h⟩
    · omega
    · have : i1 = i := by omega
      subst this
      exact h.2.2
    · omega
    · have hz := testBit_of_low_byte_clear _ (7 - (3 * i + 1) % 8)
        (hub ((row i1 >>> 8) % 2) (by omega)) (by omega)
      rw [hz] at h
      simp at h
  · intro h
    exact ⟨i, hi, Or.inr (Or.inl ⟨rfl, by omega, h⟩)⟩

theorem payload_green_lost (pf : Platform) (row : Nat → Nat) (i : Nat) (hi : i < 400)
    (hph : (3 * i) % 8 = 7) :
    spec_decode_bit (packed_row pf row ++ [0, 0]) (3 * i + 1) = 0 := by
  have hle := spec_decode_bit_le_one (packed_row pf row ++ [0, 0]) (3 * i + 1)
  have hne : ¬ spec_decode_bit (packed_row pf row ++ [0, 0]) (3 * i + 1) = 1 := by
    rw [spec_decode_bit_payload pf row (3 * i + 1) (by omega)]
    rintro ⟨i1, hi1, h | h | h | h⟩ <;> omega
  omega

theorem build_cmd_buf_length (line : Int) : (build_cmd_buf line).length = 7 := rfl

theorem line_payload_length (pf : Platform) (par : lpm027m128c_par) (line : Int) :
    (line_payload pf par line).length = 152 := by
  simp [line_payload, packed_row_length]

theorem update_line_out_of_range (pf : Platform) (env : Env) (par : lpm027m128c_par)
    (line : Int) (tr : List Event) (h : 240 ≤ line) :
    lpm027m128c_update_line pf env par line tr = (-EINVAL, tr) := by
  have h1 : line ≥ (LPM027M128C_HEIGHT : Int) := by
    simpa [LPM027M128C_HEIGHT] using h
  simp [lpm027m128c_update_line, h1]

theorem update_line_alloc_failed (pf : Platform) (env : Env) (par : lpm027m128c_par)
    (line : Int) (tr : List Event) (h : line < 240)
    (ha : env.kmalloc tr 152 = none) :
    lpm027m128c_update_line pf env par line tr = (-ENOMEM, tr ++ attempt_alloc_failed) := by
  have h1 : ¬ line ≥ (LPM027M128C_HEIGHT : Int) := by
    simpa [LPM027M128C_HEIGHT] using h
  have h152 : LPM027M128C_WIDTH * 3 / 8 + 2 = 152 := by decide
  simp [lpm027m128c_update_line, h1, h152, ha, attempt_alloc_failed]

theorem update_line_header_failed (pf : Platform) (env : Env) (par : lpm027m128c_par)
    (line : Int) (tr : List Event) (h : line < 240) (uninit : Nat → Nat)
    (ha : env.kmalloc tr 152 = some uninit)
    (hh : env.spi_sync (tr ++ [Event.kmalloc 152 true, Event.gpiod_set_value Gpio.scs 1])
            (build_cmd_buf line) < 0) :
    lpm027m128c_update_line pf env par line tr
      = (env.spi_sync (tr ++ [Event.kmalloc 152 true, Event.gpiod_set_value Gpio.scs 1])
            (build_cmd_buf line),
         tr ++ attempt_header_failed line) := by
  have h1 : ¬ line ≥ (LPM027M128C_HEIGHT : Int) := by
    simpa [LPM027M128C_HEIGHT] using h
  have h152 : LPM027M128C_WIDTH * 3 / 8 + 2 = 152 := by decide
  have ht : (build_cmd_buf line).take 7 = build_cmd_buf line := rfl
  simp only [lpm027m128c_update_line, h1, h152, ha, if_false, lpm027m128c_write_data,
    gpiod_set_value_cansleep, ht, List.append_assoc, List.singleton_append, hh, if_true,
    attempt_header_failed, List.cons_append, List.nil_append]

theorem update_line_complete (pf : Platform) (env : Env) (par : lpm027m128c_par)
    (line : Int) (tr : List Event) (h : line < 240) (uninit : Nat → Nat)
    (ha : env.kmalloc tr 152 = some uninit)
    (hh : 0 ≤ env.spi_sync (tr ++ [Event.kmalloc 152 true, Event.gpiod_set_value Gpio.scs 1])
            (build_cmd_buf line)) :
    lpm027m128c_update_line pf env par line tr
      = (env.spi_sync (tr ++ [Event.kmalloc 152 true, Event.gpiod_set_value Gpio.scs 1,
            Event.spi_sync (build_cmd_buf line)]) (line_payload pf par line),
         tr ++ attempt_complete pf par line) := by
  have h1 : ¬ line ≥ (LPM027M128C_HEIGHT : Int) := by
    simpa [LPM027M128C_HEIGHT] using h
  have h152 : LPM027M128C_WIDTH * 3 / 8 + 2 = 152 := by decide
  have ht : (build_cmd_buf line).take 7 = build_cmd_buf line := rfl
  have hh1 : ¬ env.spi_sync (tr ++ [Event.kmalloc 152 true, Event.gpiod_set_value Gpio.scs 1])
            (build_cmd_buf line) < 0 := by omega
  have hp : build_line_buf pf par.vmem line (fresh_block uninit 152) = line_payload pf par line :=
    build_line_buf_eq pf par.vmem line _ (fresh_block_length uninit 152)
  have hpt : (line_payload pf par line).take 152 = line_payload pf par line :=
    List.take_of_length_le (by rw [line_payload_length])
  simp only [lpm027m128c_update_line, h1, h152, ha, if_false, lpm027m128c_write_data,
    gpiod_set_value_cansleep, ht, List.append_assoc, List.singleton_append, hh1,
    attempt_complete, List.cons_append, List.nil_append, hp, hpt]

theorem update_line_attempt (pf : Platform) (env : Env) (par : lpm027m128c_par)
    (line : Nat) (tr : List Event) (h : line < 240) :
    ∃ seg, is_line_attempt pf par line seg ∧
      (lpm027m128c_update_line pf env par (line : Int) tr).2 = tr ++ seg := by
  have hl : (line : Int) < 240 := by omega
  cases ha : env.kmalloc tr 152 with
  | none =>
    exact ⟨_, Or.inl rfl, by rw [update_line_alloc_failed pf env par _ tr hl ha]⟩
  | some uninit =>
    by_cases hh : env.spi_sync
        (tr ++ [Event.kmalloc 152 true, Event.gpiod_set_value Gpio.scs 1])
        (build_cmd_buf line) < 0
    · exact ⟨_, Or.inr (Or.inl rfl),
        by rw [update_line_header_failed pf env par _ tr hl uninit ha hh]⟩
    · exact ⟨_, Or.inr (Or.inr rfl),
        by rw [update_line_complete pf env par _ tr hl uninit ha (by omega)]⟩

theorem refresh_loop_attempts (pf : Platform) (env : Env) (par : lpm027m128c_par)
    (ls : List Nat) (hls : ∀ l ∈ ls, l < 240) (tr : List Event) :
    ∃ segs : List (List Event), List.Forall₂ (is_line_attempt pf par) ls segs ∧
      ls.foldl (fun (t : List Event) (i : Nat) => (lpm027m128c_update_line pf env par (i : Int) t).2
          ++ [Event.udelay 50]) tr
        = tr ++ (segs.map (fun seg => seg ++ [Event.udelay 50])).flatten := by
  induction ls generalizing tr with
  | nil => exact ⟨[], List.Forall₂.nil, by simp⟩
  | cons l ls ih =>
    obtain ⟨seg, hseg, heq⟩ :=
      update_line_attempt pf env par l tr (hls l (List.mem_cons_self _ _))
    obtain ⟨segs, hsegs, hfold⟩ :=
      ih (fun x hx => hls x (List.mem_cons_of_mem _ hx)) (tr ++ seg ++ [Event.udelay 50])
    refine ⟨seg :: segs, List.Forall₂.cons hseg hsegs, ?_⟩
    rw [List.foldl_cons, heq, hfold]
    simp [List.append_assoc]

theorem refresh_loop_complete (pf : Platform) (env : Env) (par : lpm027m128c_par)
    (hk : ∀ t n, (env.kmalloc t n).isSome = true) (hs : ∀ t d, 0 ≤ env.spi_sync t d)
    (ls : List Nat) (hls : ∀ l ∈ ls, l < 240) (tr : List Event) :
    ls.foldl (fun (t : List Event) (i : Nat) => (lpm027m128c_update_line pf env par (i : Int) t).2
        ++ [Event.udelay 50]) tr
      = tr ++ ls.flatMap (fun l => attempt_complete pf par (l : Int) ++ [Event.udelay 50]) := by
  induction ls generalizing tr with
  | nil => simp
  | cons l ls ih =>
    have hl : ((l : Nat) : Int) < 240 := by
      have := hls l (List.mem_cons_self _ _)
      omega
    obtain ⟨uninit, hu⟩ := Option.isSome_iff_exists.1 (hk tr 152)
    rw [List.foldl_cons, update_line_complete pf env par _ tr hl uninit hu (hs _ _),
      ih (fun x hx => hls x (List.mem_cons_of_mem _ hx))]
    simp [List.append_assoc]

theorem bus_events_append (a b : List Event) :
    bus_events (a ++ b) = bus_events a ++ bus_events b := by
  simp [bus_events]

theorem bus_events_complete (pf : Platform) (par : lpm027m128c_par) (ls : List Nat) :
    bus_events (ls.flatMap (fun l => attempt_complete pf par (l : Int) ++ [Event.udelay 50]))
      = ls.flatMap (fun l =>
          [Event.gpiod_set_value Gpio.scs 1, Event.spi_sync (build_cmd_buf (l : Int)),
           Event.spi_sync (line_payload pf par (l : Int)), Event.gpiod_set_value Gpio.scs 0]) := by
  induction ls with
  | nil => rfl
  | cons l ls ih =>
    rw [List.flatMap_cons, List.flatMap_cons, bus_events_append, ih]
    rfl

theorem build_cmd_buf_nat (line : Nat) :
    build_cmd_buf (line : Int) = [0x01, 0, 0, 0, 0, (line >>> 8) &&& 0x03, line &&& 0xFF] := by
  have h1 : Int.land (((line : Nat) : Int) >>> 8) 0x03 = (((line >>> 8) &&& 0x03 : Nat) : Int) := rfl
  have h2 : Int.land ((line : Nat) : Int) 0xFF = ((line &&& 0xFF : Nat) : Int) := rfl
  have h3 : (line >>> 8) &&& 0x03 ≤ 3 := Nat.and_le_right
  have h4 : line &&& 0xFF ≤ 255 := Nat.and_le_right
  simp only [build_cmd_buf, h1, h2, u8]
  have e1 : ((((line >>> 8) &&& 0x03 : Nat) : Int) % 256).toNat = (line >>> 8) &&& 0x03 := by omega
  have e2 : (((line &&& 0xFF : Nat) : Int) % 256).toNat = line &&& 0xFF := by omega
  rw [e1, e2]

theorem build_cmd_buf_valid (line : Nat) (h : line < 240) :
    build_cmd_buf (line : Int) = [0x01, 0, 0, 0, 0, 0, line] := by
  rw [build_cmd_buf_nat]
  have h1 : line >>> 8 = 0 := by
    rw [Nat.shiftRight_eq_div_pow]
    omega
  have h2 : line &&& 0xFF = line := by
    have := Nat.and_pow_two_sub_one_eq_mod line 8
    simp at this
    rw [this]
    omega
  rw [h1, h2]
  rfl

theorem or_byte_getD_lt (pf : Platform) (buf : List Nat) (w : Write)
    (h : ∀ k, buf.getD k 0 < 256) (k : Nat) : (or_byte pf buf w).getD k 0 < 256 := by
  have hk := h k
  simp only [or_byte, List.getD_eq_getElem?_getD, List.getElem?_set] at hk ⊢
  split
  · split
    · exact Nat.mod_lt _ (by decide)
    · decide
  · exact hk

theorem foldl_or_byte_getD_lt (pf : Platform) (ws : List Write) (buf : List Nat)
    (h : ∀ k, buf.getD k 0 < 256) (k : Nat) : ((ws.foldl (or_byte pf) buf).getD k 0) < 256 := by
  induction ws generalizing buf with
  | nil => exact h k
  | cons w ws ih => exact ih _ (or_byte_getD_lt pf buf w h)

theorem pixel_loop_getD_lt (pf : Platform) (row : Nat → Nat) (is : List Nat) (buf : List Nat)
    (h : ∀ k, buf.getD k 0 < 256) (k : Nat) :
    ((is.foldl (fun b i => (pixel_writes i (row i)).foldl (or_byte pf) b) buf).getD k 0)
      < 256 := by
  induction is generalizing buf with
  | nil => exact h k
  | cons i is ih => exact ih _ (foldl_or_byte_getD_lt pf _ buf h)

theorem packed_row_getD_lt (pf : Platform) (row : Nat → Nat) (k : Nat) :
    (packed_row pf row).getD k 0 < 256 := by
  unfold packed_row pack_pixels
  apply pixel_loop_getD_lt
  intro k1
  rw [getD_replicate_zero]
  decide

theorem red_bytes_bits :
    ∀ k < 150, red_bytes.getD k 0 < 256 ∧
      ∀ j < 8, (red_bytes.getD k 0).testBit j = decide ((8 * k + 7 - j) % 3 = 0) := by
  decide

theorem red_bytes_length : red_bytes.length = 150 := by
  simp [red_bytes]

theorem list_eq_of_getD_eq (a b : List Nat) (n : Nat) (ha : a.length = n) (hb : b.length = n)
    (h : ∀ k < n, a.getD k 0 = b.getD k 0) : a = b := by
  apply List.ext_getElem (by rw [ha, hb])
  intro k h1 h2
  have := h k (by omega)
  simpa [List.getD_eq_getElem?_getD, List.getElem?_eq_getElem h1,
    List.getElem?_eq_getElem h2] using this

theorem packed_row_red (pf : Platform) (row : Nat → Nat)
    (hub : pf.shl_undefined 0 (-1) % 256 = 0)
    (hrow : ∀ i < 400, (row i >>> 16) % 2 = 1 ∧ (row i >>> 8) % 2 = 0 ∧ row i % 2 = 0) :
    packed_row pf row = red_bytes := by
  apply list_eq_of_getD_eq _ _ 150 (packed_row_length pf row) red_bytes_length
  intro k hk
  obtain ⟨hlt, hbits⟩ := red_bytes_bits k hk
  apply Nat.eq_of_testBit_eq
  intro j
  by_cases hj : j < 8
  · rw [hbits j hj]
    rw [Bool.eq_iff_iff, packed_row_testBit pf row k j hk hj]
    simp only [decide_eq_true_eq]
    constructor
    · rintro ⟨i, hi, h | h | h | h⟩
      · omega
      · have := (hrow i hi).2.1
        omega
      · have := (hrow i hi).2.2
        omega
      · rw [(hrow i hi).2.1, testBit_of_low_byte_clear _ j hub hj] at h
        simp at h
    · intro h
      exact ⟨(8 * k + 7 - j) / 3, by omega, Or.inl ⟨by omega, (hrow _ (by omega)).1⟩⟩
  · have h1 : (packed_row pf row).getD k 0 < 2 ^ j :=
      lt_of_lt_of_le (packed_row_getD_lt pf row k)
        (by
          have : (2 : Nat) ^ 8 ≤ 2 ^ j := Nat.pow_le_pow_right (by decide) (by omega)
          simpa using this)
    have h2 : red_bytes.getD k 0 < 2 ^ j :=
      lt_of_lt_of_le hlt
        (by
          have : (2 : Nat) ^ 8 ≤ 2 ^ j := Nat.pow_le_pow_right (by decide) (by omega)
          simpa using this)
    rw [Nat.testBit_lt_two_pow h1, Nat.testBit_lt_two_pow h2]

theorem arm32_low_byte_clear : ShlLowByteClear arm32 := by
  intro g _
  simp [arm32]

theorem arm64_low_byte_clear : ShlLowByteClear arm64 := by
  intro g hg
  have h : g = 0 ∨ g = 1 := by omega
  rcases h with h | h <;> subst h <;> decide

theorem is_line_attempt_no_lock (pf : Platform) (par : lpm027m128c_par) (line : Nat)
    (seg : List Event) (h : is_line_attempt pf par line seg) :
    seg.count Event.mutex_lock = 0 := by
  rcases h with h | h | h <;> subst h <;>
    simp [attempt_alloc_failed, attempt_header_failed, attempt_complete, List.count_cons]

theorem refresh_loop_lock_count (pf : Platform) (env : Env) (par : lpm027m128c_par)
    (ls : List Nat) (hls : ∀ l ∈ ls, l < 240) (tr : List Event) :
    (ls.foldl (fun (t : List Event) (i : Nat) =>
        (lpm027m128c_update_line pf env par (i : Int) t).2 ++ [Event.udelay 50]) tr).count
          Event.mutex_lock
      = tr.count Event.mutex_lock := by
  induction ls generalizing tr with
  | nil => rfl
  | cons l ls ih =>
    obtain ⟨seg, hseg, heq⟩ :=
      update_line_attempt pf env par l tr (hls l (List.mem_cons_self _ _))
    rw [List.foldl_cons, ih (fun x hx => hls x (List.mem_cons_of_mem _ hx)), heq]
    simp [List.count_append, is_line_attempt_no_lock pf par l seg hseg, List.count_cons]

theorem update_display_refresh_count (pf : Platform) (env : Env) (par : lpm027m128c_par)
    (tr : List Event) :
    refresh_count (lpm027m128c_update_display pf env par tr) = refresh_count tr + 1 := by
  unfold refresh_count lpm027m128c_update_display
  simp only [List.count_append]
  rw [refresh_loop_lock_count pf env par _
    (by intro l hl; simpa [LPM027M128C_HEIGHT] using hl)]
  simp [List.count_append, List.count_cons]

/-! ## Claims -/

/-- C1 (fails on the code): with an all-green frame buffer (`0x00000100` in every
pixel), whatever the platform does with the out-of-range shift and whatever the fresh
block held, the payload bit at serial position `3 * 5 + 1 = 16`, where the decoder
reads the green bit of pixel 5, is 0 although that pixel's green bit is 1. -/
theorem update_line_green_lost_at_pixel_five (pf : Platform) (uninit : Nat → Nat)
    (line : Int) :
    spec_decode_bit
        (build_line_buf pf (fun _ => 0x00000100) line (fresh_block uninit 152)) (3 * 5 + 1) = 0 ∧
      ((0x00000100 : Nat) >>> 8) &&& 0x01 = 1 := by
  refine ⟨?_, by decide⟩
  rw [build_line_buf_eq pf _ line _ (fresh_block_length uninit 152)]
  exact payload_green_lost pf _ 5 (by decide) (by decide)

/-- C2 (fails on the code): when the header transmission fails with `-5`, line 0 returns
`-5` after allocating, asserting chip-select, sending the header and freeing the buffer;
the last chip-select operation of the call sets the line to 1 (asserted). -/
theorem update_line_header_failure_keeps_scs_asserted (pf : Platform) :
    lpm027m128c_update_line pf env_spi_fails ⟨fun _ => 0, true⟩ 0 []
        = (-5, [Event.kmalloc 152 true, Event.gpiod_set_value Gpio.scs 1,
                Event.spi_sync [0x01, 0, 0, 0, 0, 0, 0], Event.kfree]) ∧
      last_scs (lpm027m128c_update_line pf env_spi_fails ⟨fun _ => 0, true⟩ 0 []).2 = some 1 := by
  have h := update_line_header_failed pf env_spi_fails ⟨fun _ => 0, true⟩ 0 [] (by decide)
    (fun _ => 0xA5) rfl (by decide)
  rw [h]
  exact ⟨rfl, rfl⟩

/-- C3: for every line index `line ≥ 240`, `lpm027m128c_update_line` returns `-EINVAL` and
its trace is the one it was entered with: no transport call, no chip-select operation
(and no other kernel call) is issued. -/
theorem update_line_rejects_line_beyond_height (pf : Platform) (env : Env)
    (par : lpm027m128c_par) (line : Int) (tr : List Event)
    (h : (LPM027M128C_HEIGHT : Int) ≤ line) :
    (lpm027m128c_update_line pf env par line tr).1 = -EINVAL ∧
      (lpm027m128c_update_line pf env par line tr).2 = tr ∧
      bus_events (lpm027m128c_update_line pf env par line tr).2 = bus_events tr := by
  have h1 : (240 : Int) ≤ line := by simpa [LPM027M128C_HEIGHT] using h
  rw [update_line_out_of_range pf env par line tr h1]
  exact ⟨rfl, rfl, rfl⟩

/-- Witness of C3 at `line = 240` with every service succeeding. -/
theorem update_line_rejects_line_beyond_height_witness :
    (lpm027m128c_update_line arm64 env_ok ⟨fun _ => 0, true⟩ 240 []).1 = -22 ∧
      (lpm027m128c_update_line arm64 env_ok ⟨fun _ => 0, true⟩ 240 []).2 = [] ∧
      bus_events (lpm027m128c_update_line arm64 env_ok ⟨fun _ => 0, true⟩ 240 []).2 = [] :=
  update_line_rejects_line_beyond_height arm64 env_ok ⟨fun _ => 0, true⟩ 240 [] (by decide)

/-- C4: when every allocation and every transmission succeeds, the chip-select and
transport events of one `lpm027m128c_update_display` are, after those already in the
trace, exactly the 240 groups `assert, header, payload, deassert` for
`line = 0, 1, ..., 239` in this order; the header is
`[0x01, 0, 0, 0, 0, (line >> 8) & 3, line & 0xFF]` (7 bytes), the payload is what
`lpm027m128c_update_line` builds in any fresh block, 150 packed bytes followed by two
zero bytes, and header and payload together are 159 bytes. -/
theorem update_display_frames_every_line (pf : Platform) (env : Env)
    (par : lpm027m128c_par) (tr : List Event)
    (hk : ∀ t n, (env.kmalloc t n).isSome = true) (hs : ∀ t d, 0 ≤ env.spi_sync t d) :
    bus_events (lpm027m128c_update_display pf env par tr)
        = bus_events tr ++ (List.range 240).flatMap (fun line =>
            [Event.gpiod_set_value Gpio.scs 1, Event.spi_sync (build_cmd_buf (line : Int)),
             Event.spi_sync (line_payload pf par (line : Int)),
             Event.gpiod_set_value Gpio.scs 0]) ∧
      ∀ line : Nat, line < 240 →
        build_cmd_buf (line : Int) = [0x01, 0, 0, 0, 0, (line >>> 8) &&& 0x03, line &&& 0xFF] ∧
        (∀ uninit, build_line_buf pf par.vmem (line : Int) (fresh_block uninit 152)
            = line_payload pf par (line : Int)) ∧
        (line_payload pf par (line : Int)).length = 150 + 2 ∧
        (line_payload pf par (line : Int)).drop 150 = [0, 0] ∧
        (build_cmd_buf (line : Int)).length + (line_payload pf par (line : Int)).length
          = 159 := by
  constructor
  · unfold lpm027m128c_update_display
    simp only []
    rw [refresh_loop_complete pf env par hk hs _
      (by intro l hl; simpa [LPM027M128C_HEIGHT] using hl)]
    simp only [bus_events_append, bus_events_complete, LPM027M128C_HEIGHT]
    simp [bus_events]
  · intro line _
    refine ⟨build_cmd_buf_nat line, ?_, line_payload_length pf par _, ?_, ?_⟩
    · intro uninit
      exact build_line_buf_eq pf par.vmem _ _ (fresh_block_length uninit 152)
    · unfold line_payload
      rw [List.drop_left' (packed_row_length pf _)]
    · rw [build_cmd_buf_length, line_payload_length]

/-- Witness of C4 in the environment where every service succeeds. -/
theorem update_display_frames_every_line_witness :
    bus_events (lpm027m128c_update_display arm64 env_ok ⟨fun _ => 0, true⟩ [])
        = bus_events [] ++ (List.range 240).flatMap (fun line =>
            [Event.gpiod_set_value Gpio.scs 1, Event.spi_sync (build_cmd_buf (line : Int)),
             Event.spi_sync (line_payload arm64 ⟨fun _ => 0, true⟩ (line : Int)),
             Event.gpiod_set_value Gpio.scs 0]) :=
  (update_display_frames_every_line arm64 env_ok ⟨fun _ => 0, true⟩ []
    (fun _ _ => rfl) (fun _ _ => Int.le_refl 0)).1

/-- C5: when every frame-buffer pixel is pure red (bit 16 set, bits 8 and 0 clear) and
the platform's `0 << -1` has a clear low byte, then for every line `0 ≤ line < 240` the
payload `lpm027m128c_update_line` builds in any fresh block is `0x92, 0x49, 0x24`
repeated 50 times followed by two zero bytes, and the header is
`[0x01, 0, 0, 0, 0, 0, line]`: address bytes `(0, line)`. -/
theorem update_line_pure_red (pf : Platform) (vmem : Int → Nat) (line : Nat)
    (uninit : Nat → Nat)
    (hub : pf.shl_undefined 0 (-1) % 256 = 0)
    (hred : ∀ n : Nat, n < LPM027M128C_WIDTH * LPM027M128C_HEIGHT →
      (vmem n >>> 16) &&& 0x01 = 1 ∧ (vmem n >>> 8) &&& 0x01 = 0 ∧ vmem n &&& 0x01 = 0)
    (hline : line < LPM027M128C_HEIGHT) :
    build_line_buf pf vmem (line : Int) (fresh_block uninit 152)
        = (List.replicate 50 [0x92, 0x49, 0x24]).flatten ++ [0, 0] ∧
      build_cmd_buf (line : Int) = [0x01, 0, 0, 0, 0, 0, line] := by
  have hl : line < 240 := by simpa [LPM027M128C_HEIGHT] using hline
  refine ⟨?_, build_cmd_buf_valid line hl⟩
  rw [build_line_buf_eq pf vmem _ _ (fresh_block_length uninit 152)]
  have hrow : ∀ i : Nat, i < 400 →
      (vmem ((line : Int) * LPM027M128C_WIDTH + (i : Int)) >>> 16) % 2 = 1 ∧
      (vmem ((line : Int) * LPM027M128C_WIDTH + (i : Int)) >>> 8) % 2 = 0 ∧
      vmem ((line : Int) * LPM027M128C_WIDTH + (i : Int)) % 2 = 0 := by
    intro i hi
    have hn : line * 400 + i < LPM027M128C_WIDTH * LPM027M128C_HEIGHT := by
      simp only [LPM027M128C_WIDTH, LPM027M128C_HEIGHT]
      omega
    have h := hred (line * 400 + i) hn
    have hc : ((line * 400 + i : Nat) : Int) = (line : Int) * LPM027M128C_WIDTH + (i : Int) := by
      simp [LPM027M128C_WIDTH]
    rw [hc] at h
    simpa [Nat.and_one_is_mod] using h
  rw [packed_row_red pf _ hub hrow]
  rfl

/-- Witness of C5: line 239 of the frame buffer holding `0x00010000` everywhere, on
32-bit ARM. -/
theorem update_line_pure_red_witness :
    build_line_buf arm32 (fun _ => 0x00010000) ((239 : Nat) : Int)
        (fresh_block (fun _ => 0xA5) 152)
        = (List.replicate 50 [0x92, 0x49, 0x24]).flatten ++ [0, 0] ∧
      build_cmd_buf ((239 : Nat) : Int) = [0x01, 0, 0, 0, 0, 0, 239] :=
  update_line_pure_red arm32 (fun _ => 0x00010000) 239 (fun _ => 0xA5) (by decide)
    (fun _ _ => (by decide : ((0x00010000 : Nat) >>> 16) &&& 0x01 = 1 ∧
      ((0x00010000 : Nat) >>> 8) &&& 0x01 = 0 ∧ (0x00010000 : Nat) &&& 0x01 = 0)) (by decide)

/-- C6: for every environment, that is for every pattern of allocation and transmission
failures, `lpm027m128c_update_display` appends to the trace the mutex acquisition, then
240 segments, the one for `line = 0, 1, ..., 239` in this order being the events of
exactly one transfer attempt of that line (allocation failed, header failed, or
complete) followed by the 50 µs delay, then the mutex release.  It returns nothing, so no failure reaches the caller. -/
theorem update_display_best_effort (pf : Platform) (env : Env) (par : lpm027m128c_par)
    (tr : List Event) :
    ∃ segs : List (List Event),
      segs.length = 240 ∧
      List.Forall₂ (is_line_attempt pf par) (List.range LPM027M128C_HEIGHT) segs ∧
      lpm027m128c_update_display pf env par tr
        = tr ++ [Event.mutex_lock]
            ++ (segs.map (fun seg => seg ++ [Event.udelay 50])).flatten
            ++ [Event.mutex_unlock] := by
  obtain ⟨segs, hsegs, hfold⟩ := refresh_loop_attempts pf env par
    (List.range LPM027M128C_HEIGHT)
    (by intro l hl; simpa [LPM027M128C_HEIGHT] using hl) (tr ++ [Event.mutex_lock])
  have hlen : segs.length = 240 := by
    rw [← hsegs.length_eq, List.length_range]
    rfl
  refine ⟨segs, hlen, hsegs, ?_⟩
  unfold lpm027m128c_update_display
  simp only []
  rw [hfold]

/-- C9: for every pixel index `i < 400` the loop body executes three `|=` statements, for
red, green and blue; red and green go to byte `3i / 8`, blue to that byte or, in the
branch `bit_pos > 5`, to the next; every byte index is below 150; the red and blue shift
counts lie in `0..7`; the green shift count is `6 - bit_pos`, in `0..7` unless
`bit_pos = 7`, where it is `-1`; `bit_pos = 7` exactly when `i % 8 = 5`, which holds for
50 pixels of a row. -/
theorem pixel_writes_well_defined (i pixel : Nat) (hi : i < LPM027M128C_WIDTH) :
    ∃ wr wg wb : Write, pixel_writes i pixel = [wr, wg, wb] ∧
      wr.value = (pixel >>> 16) &&& 0x01 ∧ wg.value = (pixel >>> 8) &&& 0x01 ∧
      wb.value = pixel &&& 0x01 ∧
      wr.index = i * 3 / 8 ∧ wg.index = i * 3 / 8 ∧
      wb.index = (if (i * 3) % 8 > 5 then i * 3 / 8 + 1 else i * 3 / 8) ∧
      wr.index < 150 ∧ wg.index < 150 ∧ wb.index < 150 ∧
      (0 ≤ wr.shift ∧ wr.shift ≤ 7) ∧ (0 ≤ wb.shift ∧ wb.shift ≤ 7) ∧
      wg.shift = 6 - (((i * 3) % 8 : Nat) : Int) ∧
      ((i * 3) % 8 ≠ 7 → 0 ≤ wg.shift ∧ wg.shift ≤ 7) ∧
      ((i * 3) % 8 = 7 → wg.shift = -1) ∧
      ((i * 3) % 8 = 7 ↔ i % 8 = 5) ∧
      ((List.range LPM027M128C_WIDTH).filter (fun n => (n * 3) % 8 = 7)).length = 50 := by
  have hi1 : i < 400 := by simpa [LPM027M128C_WIDTH] using hi
  have hcount :
      ((List.range LPM027M128C_WIDTH).filter (fun n => (n * 3) % 8 = 7)).length = 50 := by
    decide
  by_cases hb : (i * 3) % 8 ≤ 5
  · have hnot : ¬ (i * 3) % 8 > 5 := by omega
    refine ⟨⟨i * 3 / 8, (pixel >>> 16) &&& 0x01, 7 - (((i * 3) % 8 : Nat) : Int)⟩,
      ⟨i * 3 / 8, (pixel >>> 8) &&& 0x01, 6 - (((i * 3) % 8 : Nat) : Int)⟩,
      ⟨i * 3 / 8, pixel &&& 0x01, 5 - (((i * 3) % 8 : Nat) : Int)⟩,
      ?_, rfl, rfl, rfl, rfl, rfl, ?_, ?_, ?_, ?_, ?_, ?_, rfl, ?_, ?_, ?_, hcount⟩
    · simp only [pixel_writes, hb, if_true]
    · simp only [hnot, if_false]
    all_goals try dsimp only
    all_goals omega
  · have hgt : (i * 3) % 8 > 5 := by omega
    refine ⟨⟨i * 3 / 8, (pixel >>> 16) &&& 0x01, 7 - (((i * 3) % 8 : Nat) : Int)⟩,
      ⟨i * 3 / 8, (pixel >>> 8) &&& 0x01, 6 - (((i * 3) % 8 : Nat) : Int)⟩,
      ⟨i * 3 / 8 + 1, pixel &&& 0x01, 7 - ((((i * 3) % 8 : Nat) : Int) - 6)⟩,
      ?_, rfl, rfl, rfl, rfl, rfl, ?_, ?_, ?_, ?_, ?_, ?_, rfl, ?_, ?_, ?_, hcount⟩
    · simp only [pixel_writes, hb, if_false]
    · simp only [hgt, if_true]
    all_goals try dsimp only
    all_goals omega

/-- Witness of C9 at pixel 5, the first pixel with `bit_pos = 7`. -/
theorem pixel_writes_well_defined_witness :
    ∃ wr wg wb : Write, pixel_writes 5 0x00FFFFFF = [wr, wg, wb] ∧
      wr.value = ((0x00FFFFFF : Nat) >>> 16) &&& 0x01 ∧
      wg.value = ((0x00FFFFFF : Nat) >>> 8) &&& 0x01 ∧
      wb.value = (0x00FFFFFF : Nat) &&& 0x01 ∧
      wr.index = 5 * 3 / 8 ∧ wg.index = 5 * 3 / 8 ∧
      wb.index = (if (5 * 3) % 8 > 5 then 5 * 3 / 8 + 1 else 5 * 3 / 8) ∧
      wr.index < 150 ∧ wg.index < 150 ∧ wb.index < 150 ∧
      (0 ≤ wr.shift ∧ wr.shift ≤ 7) ∧ (0 ≤ wb.shift ∧ wb.shift ≤ 7) ∧
      wg.shift = 6 - (((5 * 3) % 8 : Nat) : Int) ∧
      ((5 * 3) % 8 ≠ 7 → 0 ≤ wg.shift ∧ wg.shift ≤ 7) ∧
      ((5 * 3) % 8 = 7 → wg.shift = -1) ∧
      ((5 * 3) % 8 = 7 ↔ 5 % 8 = 5) ∧
      ((List.range LPM027M128C_WIDTH).filter (fun n => (n * 3) % 8 = 7)).length = 50 :=
  pixel_writes_well_defined 5 0x00FFFFFF (by decide)

/-- C10: on a platform whose `g << -1` has a clear low byte, for every frame buffer, line,
fresh block and pixel index `i < 400`, the payload bit at serial position `3i` is bit 16
of pixel `i`, the bit at `3i + 2` is bit 0 of pixel `i`, and, when `(3i) % 8 ≠ 7`, the
bit at `3i + 1` is bit 8 of pixel `i`. -/
theorem update_line_packing_partial_correctness (pf : Platform) (vmem : Int → Nat)
    (line : Int) (uninit : Nat → Nat) (i : Nat)
    (hub : ShlLowByteClear pf) (hi : i < LPM027M128C_WIDTH) :
    spec_decode_bit (build_line_buf pf vmem line (fresh_block uninit 152)) (3 * i)
        = (vmem (line * LPM027M128C_WIDTH + i) >>> 16) &&& 0x01 ∧
      spec_decode_bit (build_line_buf pf vmem line (fresh_block uninit 152)) (3 * i + 2)
        = vmem (line * LPM027M128C_WIDTH + i) &&& 0x01 ∧
      ((3 * i) % 8 ≠ 7 →
        spec_decode_bit (build_line_buf pf vmem line (fresh_block uninit 152)) (3 * i + 1)
          = (vmem (line * LPM027M128C_WIDTH + i) >>> 8) &&& 0x01) := by
  have hi1 : i < 400 := by simpa [LPM027M128C_WIDTH] using hi
  rw [build_line_buf_eq pf vmem line _ (fresh_block_length uninit 152)]
  simp only [Nat.and_one_is_mod]
  exact ⟨payload_red pf _ i hi1 hub, payload_blue pf _ i hi1 hub,
    fun hph => payload_green pf _ i hi1 hub hph⟩

/-- Witness of C10: pixel 2 (`bit_pos = 6`, blue in the next byte) of line 0 of an
all-white frame buffer, on AArch64. -/
theorem update_line_packing_partial_correctness_witness :
    spec_decode_bit (build_line_buf arm64 (fun _ => 0x00FFFFFF) 0
        (fresh_block (fun _ => 0xA5) 152)) (3 * 2)
        = ((fun _ => 0x00FFFFFF : Int → Nat) (0 * LPM027M128C_WIDTH + (2 : Nat)) >>> 16)
            &&& 0x01 ∧
      spec_decode_bit (build_line_buf arm64 (fun _ => 0x00FFFFFF) 0
        (fresh_block (fun _ => 0xA5) 152)) (3 * 2 + 2)
        = (fun _ => 0x00FFFFFF : Int → Nat) (0 * LPM027M128C_WIDTH + (2 : Nat)) &&& 0x01 ∧
      ((3 * 2) % 8 ≠ 7 →
        spec_decode_bit (build_line_buf arm64 (fun _ => 0x00FFFFFF) 0
          (fresh_block (fun _ => 0xA5) 152)) (3 * 2 + 1)
          = ((fun _ => 0x00FFFFFF : Int → Nat) (0 * LPM027M128C_WIDTH + (2 : Nat)) >>> 8)
              &&& 0x01) :=
  update_line_packing_partial_correctness arm64 (fun _ => 0x00FFFFFF) 0 (fun _ => 0xA5) 2
    arm64_low_byte_clear (by decide)

/-- C7 as stated fails: a one-byte write at offset exactly 384000, the first offset
outside the buffer, is not rejected with `-EFBIG`; it returns 0 (nothing written), leaves
the position where it was and issues no kernel call. -/
theorem fb_write_at_end_returns_zero :
    (lpm027m128c_fb_write arm64 env_ok ⟨FBINFO_STATE_RUNNING, 384000, ⟨fun _ => 0, true⟩⟩
        1 384000 []).ret = 0 ∧
      (lpm027m128c_fb_write arm64 env_ok ⟨FBINFO_STATE_RUNNING, 384000, ⟨fun _ => 0, true⟩⟩
        1 384000 []).ret ≠ -EFBIG ∧
      (lpm027m128c_fb_write arm64 env_ok ⟨FBINFO_STATE_RUNNING, 384000, ⟨fun _ => 0, true⟩⟩
        1 384000 []).ppos = 384000 ∧
      (lpm027m128c_fb_write arm64 env_ok ⟨FBINFO_STATE_RUNNING, 384000, ⟨fun _ => 0, true⟩⟩
        1 384000 []).trace = [] := by
  refine ⟨?_, ?_, ?_, ?_⟩ <;> decide

/-- C7 amended: with the surface running and a 384000-byte buffer, writing with `p` the
file position as an `unsigned long`: if `p > 384000` the write is rejected with `-EFBIG`,
and if `p = 384000` it returns 0, in both cases for any count, with the position
unchanged and no kernel call at all (zero refreshes); a one-byte write at `p < 384000`
whose user copy succeeds returns 1, advances the position by 1, and after the copy the
trace is that of exactly one `lpm027m128c_update_display` on the written buffer, which
takes the mutex once. -/
theorem fb_write_bounds_and_refresh (pf : Platform) (env : Env) (info : fb_info)
    (count : Nat) (ppos : Int) (tr : List Event)
    (hstate : info.state = FBINFO_STATE_RUNNING)
    (hlen : info.smem_len = LPM027M128C_WIDTH * LPM027M128C_HEIGHT * 4) :
    (384000 < (ppos % 2 ^ pf.BITS_PER_LONG).toNat →
        (lpm027m128c_fb_write pf env info count ppos tr).ret = -EFBIG ∧
        (lpm027m128c_fb_write pf env info count ppos tr).ppos = ppos ∧
        (lpm027m128c_fb_write pf env info count ppos tr).trace = tr) ∧
      ((ppos % 2 ^ pf.BITS_PER_LONG).toNat = 384000 →
        (lpm027m128c_fb_write pf env info count ppos tr).ret = 0 ∧
        (lpm027m128c_fb_write pf env info count ppos tr).ppos = ppos ∧
        (lpm027m128c_fb_write pf env info count ppos tr).trace = tr) ∧
      ((ppos % 2 ^ pf.BITS_PER_LONG).toNat < 384000 → count = 1 →
        (env.copy_from_user tr info.par.vmem (ppos % 2 ^ pf.BITS_PER_LONG).toNat 1).1 = 0 →
        (lpm027m128c_fb_write pf env info count ppos tr).ret = 1 ∧
        (lpm027m128c_fb_write pf env info count ppos tr).ppos = ppos + 1 ∧
        (lpm027m128c_fb_write pf env info count ppos tr).trace
          = lpm027m128c_update_display pf env
              (lpm027m128c_fb_write pf env info count ppos tr).par
              (tr ++ [Event.copy_from_user (ppos % 2 ^ pf.BITS_PER_LONG).toNat 1]) ∧
        refresh_count (lpm027m128c_fb_write pf env info count ppos tr).trace
          = refresh_count tr + 1) := by
  have hlen1 : info.smem_len = 384000 := by rw [hlen]; decide
  have hrun : ¬ info.state ≠ FBINFO_STATE_RUNNING := by simp [hstate]
  refine ⟨?_, ?_, ?_⟩
  · intro hp
    simp [lpm027m128c_fb_write, hstate, hlen1, hp]
  · intro hp
    simp [lpm027m128c_fb_write, hstate, hlen1, hp]
  · intro hp hc hcopy
    subst hc
    have h1 : ¬ (ppos % 2 ^ pf.BITS_PER_LONG).toNat > 384000 := by omega
    have h2 : ¬ 1 > 384000 - (ppos % 2 ^ pf.BITS_PER_LONG).toNat := by omega
    simp only [lpm027m128c_fb_write, hrun, if_false, hlen1, h1, h2, hcopy, ne_eq,
      not_true_eq_false, one_ne_zero, Nat.cast_one, true_and]
    rw [update_display_refresh_count]
    simp [refresh_count, List.count_append, List.count_cons]

/-- Witness of C7 amended on AArch64 with every service succeeding: a one-byte write at
offset 0 is accepted and refreshes once, a one-byte write at offset 500000 is rejected. -/
theorem fb_write_bounds_and_refresh_witness :
    ((lpm027m128c_fb_write arm64 env_ok ⟨FBINFO_STATE_RUNNING, 384000, ⟨fun _ => 0, true⟩⟩
        1 0 []).ret = 1 ∧
      (lpm027m128c_fb_write arm64 env_ok ⟨FBINFO_STATE_RUNNING, 384000, ⟨fun _ => 0, true⟩⟩
        1 0 []).ppos = 0 + 1 ∧
      refresh_count (lpm027m128c_fb_write arm64 env_ok
        ⟨FBINFO_STATE_RUNNING, 384000, ⟨fun _ => 0, true⟩⟩ 1 0 []).trace
          = refresh_count [] + 1) ∧
    ((lpm027m128c_fb_write arm64 env_ok ⟨FBINFO_STATE_RUNNING, 384000, ⟨fun _ => 0, true⟩⟩
        1 500000 []).ret = -EFBIG ∧
      (lpm027m128c_fb_write arm64 env_ok ⟨FBINFO_STATE_RUNNING, 384000, ⟨fun _ => 0, true⟩⟩
        1 500000 []).ppos = 500000 ∧
      (lpm027m128c_fb_write arm64 env_ok ⟨FBINFO_STATE_RUNNING, 384000, ⟨fun _ => 0, true⟩⟩
        1 500000 []).trace = []) :=
  have h := (fb_write_bounds_and_refresh arm64 env_ok
    ⟨FBINFO_STATE_RUNNING, 384000, ⟨fun _ => 0, true⟩⟩ 1 0 [] rfl (by decide)).2.2
    (by decide) rfl rfl
  ⟨⟨h.1, h.2.1, h.2.2.2⟩,
    (fb_write_bounds_and_refresh arm64 env_ok
      ⟨FBINFO_STATE_RUNNING, 384000, ⟨fun _ => 0, true⟩⟩ 1 500000 [] rfl (by decide)).1
      (by decide)⟩

/-- C8 as stated fails: with every control-line operation failing (status `-5`,
display-enable included) and the all-clear transmission succeeding,
`lpm027m128c_init_display` returns 0 and sets `display_on`. -/
theorem init_display_ignores_control_line_failure :
    env_gpio_fails.gpiod_status
        [Event.gpiod_set_value Gpio.extmode 0, Event.gpiod_set_value Gpio.disp 0,
         Event.msleep 10] Gpio.disp 1 = -5 ∧
      (lpm027m128c_init_display env_gpio_fails ⟨fun _ => 0, false⟩ []).1 = 0 ∧
      (lpm027m128c_init_display env_gpio_fails ⟨fun _ => 0, false⟩ []).2.1.display_on
        = true := by
  refine ⟨rfl, ?_, ?_⟩ <;> decide

/-- C8 amended: let `r` be the return code of the transmission of the single byte `0x08`,
sent after the control lines were driven (mode-select low, display-enable low, 10 ms,
display-enable high, chip-select high).  If `r < 0`, `lpm027m128c_init_display` deasserts
chip-select and returns `r` with the driver state unchanged, and `lpm027m128c_probe`,
when the binding steps before it succeeded, returns `r` too, with `display_on` false.
If `r ≥ 0` it deasserts chip-select, waits 50 ms and returns 0 with `display_on` true.
The outcome of the control-line operations has no part in this: replacing it by any
other leaves the result the same. -/
theorem init_display_outcome (env : Env) (par : lpm027m128c_par) (tr : List Event)
    (penv : ProbeEnv) :
    (env.spi_sync (tr ++ [Event.gpiod_set_value Gpio.extmode 0,
          Event.gpiod_set_value Gpio.disp 0, Event.msleep 10,
          Event.gpiod_set_value Gpio.disp 1, Event.gpiod_set_value Gpio.scs 1])
          [LPM027M128C_MODE_ALL_CLEAR] < 0 →
        lpm027m128c_init_display env par tr
          = (env.spi_sync (tr ++ [Event.gpiod_set_value Gpio.extmode 0,
                Event.gpiod_set_value Gpio.disp 0, Event.msleep 10,
                Event.gpiod_set_value Gpio.disp 1, Event.gpiod_set_value Gpio.scs 1])
                [LPM027M128C_MODE_ALL_CLEAR],
             par,
             tr ++ [Event.gpiod_set_value Gpio.extmode 0,
               Event.gpiod_set_value Gpio.disp 0, Event.msleep 10,
               Event.gpiod_set_value Gpio.disp 1, Event.gpiod_set_value Gpio.scs 1,
               Event.spi_sync [0x08], Event.gpiod_set_value Gpio.scs 0]) ∧
        (0 ≤ penv.spi_setup → penv.devm_kzalloc = true →
          (∀ g, 0 ≤ penv.devm_gpiod_get g) →
          (lpm027m128c_probe penv env tr).1
            = env.spi_sync (tr ++ [Event.gpiod_set_value Gpio.extmode 0,
                Event.gpiod_set_value Gpio.disp 0, Event.msleep 10,
                Event.gpiod_set_value Gpio.disp 1, Event.gpiod_set_value Gpio.scs 1])
                [LPM027M128C_MODE_ALL_CLEAR] ∧
          (lpm027m128c_probe penv env tr).2.1.map (fun p => p.display_on) = some false)) ∧
      (0 ≤ env.spi_sync (tr ++ [Event.gpiod_set_value Gpio.extmode 0,
          Event.gpiod_set_value Gpio.disp 0, Event.msleep 10,
          Event.gpiod_set_value Gpio.disp 1, Event.gpiod_set_value Gpio.scs 1])
          [LPM027M128C_MODE_ALL_CLEAR] →
        lpm027m128c_init_display env par tr
          = (0, { par with display_on := true },
             tr ++ [Event.gpiod_set_value Gpio.extmode 0,
               Event.gpiod_set_value Gpio.disp 0, Event.msleep 10,
               Event.gpiod_set_value Gpio.disp 1, Event.gpiod_set_value Gpio.scs 1,
               Event.spi_sync [0x08], Event.gpiod_set_value Gpio.scs 0,
               Event.msleep 50])) ∧
      (∀ status : List Event → Gpio → Nat → Int,
        lpm027m128c_init_display { env with gpiod_status := status } par tr
          = lpm027m128c_init_display env par tr) := by
  refine ⟨?_, ?_, ?_⟩
  · intro hr
    have hr8 : env.spi_sync (tr ++ [Event.gpiod_set_value Gpio.extmode 0,
          Event.gpiod_set_value Gpio.disp 0, Event.msleep 10,
          Event.gpiod_set_value Gpio.disp 1, Event.gpiod_set_value Gpio.scs 1]) [8] < 0 := hr
    have hinit : ∀ p : lpm027m128c_par, lpm027m128c_init_display env p tr
          = (env.spi_sync (tr ++ [Event.gpiod_set_value Gpio.extmode 0,
                Event.gpiod_set_value Gpio.disp 0, Event.msleep 10,
                Event.gpiod_set_value Gpio.disp 1, Event.gpiod_set_value Gpio.scs 1])
                [LPM027M128C_MODE_ALL_CLEAR],
             p,
             tr ++ [Event.gpiod_set_value Gpio.extmode 0,
               Event.gpiod_set_value Gpio.disp 0, Event.msleep 10,
               Event.gpiod_set_value Gpio.disp 1, Event.gpiod_set_value Gpio.scs 1,
               Event.spi_sync [0x08], Event.gpiod_set_value Gpio.scs 0]) := by
      intro p
      simp only [lpm027m128c_init_display, gpiod_set_value_cansleep, lpm027m128c_write_cmd,
        List.append_assoc, List.singleton_append, List.cons_append, List.nil_append, hr8,
        if_true, LPM027M128C_MODE_ALL_CLEAR]
    refine ⟨hinit par, ?_⟩
    intro h1 h2 h3
    have n1 : ¬ penv.spi_setup < 0 := by omega
    have n2 : ∀ g, ¬ penv.devm_gpiod_get g < 0 := fun g => by have := h3 g; omega
    simp only [lpm027m128c_probe, n1, if_false, h2, Bool.not_true, Bool.false_eq_true, n2,
      hinit, hr, if_true, Option.map_some', and_self]
  · intro hr
    have hr1 : ¬ env.spi_sync (tr ++ [Event.gpiod_set_value Gpio.extmode 0,
          Event.gpiod_set_value Gpio.disp 0, Event.msleep 10,
          Event.gpiod_set_value Gpio.disp 1, Event.gpiod_set_value Gpio.scs 1])
          [8] < 0 := by
      have h8 : 0 ≤ env.spi_sync (tr ++ [Event.gpiod_set_value Gpio.extmode 0,
          Event.gpiod_set_value Gpio.disp 0, Event.msleep 10,
          Event.gpiod_set_value Gpio.disp 1, Event.gpiod_set_value Gpio.scs 1]) [8] := hr
      omega
    simp only [lpm027m128c_init_display, gpiod_set_value_cansleep, lpm027m128c_write_cmd,
      List.append_assoc, List.singleton_append, List.cons_append, List.nil_append, hr1,
      if_false, LPM027M128C_MODE_ALL_CLEAR]
  · intro status
    rfl

/-- Witness of C8 amended: with every transmission failing with `-5`, initialisation
and probe return `-5` and `display_on` stays false; with every service succeeding,
initialisation returns 0 and `display_on` is true. -/
theorem init_display_outcome_witness :
    ((lpm027m128c_init_display env_spi_fails ⟨fun _ => 0, false⟩ []).1 = -5 ∧
      (lpm027m128c_init_display env_spi_fails ⟨fun _ => 0, false⟩ []).2.1.display_on = false ∧
      (lpm027m128c_probe ⟨0, true, fun _ => 0, 0⟩ env_spi_fails []).1 = -5) ∧
    ((lpm027m128c_init_display env_ok ⟨fun _ => 0, false⟩ []).1 = 0 ∧
      (lpm027m128c_init_display env_ok ⟨fun _ => 0, false⟩ []).2.1.display_on = true) :=
  have h := (init_display_outcome env_spi_fails ⟨fun _ => 0, false⟩ []
    ⟨0, true, fun _ => 0, 0⟩).1 (by decide)
  have k := (init_display_outcome env_ok ⟨fun _ => 0, false⟩ []
    ⟨0, true, fun _ => 0, 0⟩).2.1 (by decide)
  ⟨⟨by rw [h.1]; rfl, by rw [h.1], (h.2 (by decide) rfl (fun _ => Int.le_refl 0)).1⟩,
    ⟨by rw [k], by rw [k]⟩⟩

end Lpm027m128c
